import Mathlib

/-!
# Verification of the quiz-app session engine and persistence layer

Shallow embedding of the quiz application's core logic:

* `src/data/quizData.ts` — catalog lookups (`getCourseById`, `getQuizItems`,
  `getQuestionById`);
* `src/hooks/useQuizStateManagement.ts` — identity resolution
  (`getQuizStateKey`), persistence (`saveQuizState`, `loadQuizState`);
* `src/components/Quiz.tsx` — the session engine (initialize, resume,
  `finishQuiz`, answer scoring);
* `src/App.tsx` — the completed-attempt history (`handleAddResult`).

JavaScript values are modelled as follows: `string | number` question ids
become `QId`; an in-memory answer (`string | Set<string> | string[] | null`)
becomes `Ans`; values parsed from JSON storage become `JAns` / `RawState`;
the browser `localStorage` becomes a total map `String → Option StoredVal`.
All functions are total; JavaScript exceptions that the source catches
locally are represented by the corresponding recovery result.
-/

namespace QuizApp

/-- A question id, which the TypeScript data model types as `string | number`
(`QuizItem.id` in `src/types/quiz.ts`). -/
inductive QId where
  | str (s : String)
  | num (n : Int)
deriving DecidableEq, Repr

/-- JavaScript `String(id)` coercion used by `getQuestionById`
(`quizData.ts` line 357): a string is itself, an integral number renders in
decimal (with a leading `-` when negative), matching `Int` printing. -/
def QId.toStr : QId → String
  | .str s => s
  | .num n => toString n

/-- Model of `QuizItem` from `src/types/quiz.ts` (fields not used by any core logic —
`explanation`, `conditions`, `caseStudyId`, `imageUrl` — are omitted).
`options` is the option-key → option-text map. -/
structure QuizItem where
  id : QId
  topic : Option String
  question : String
  options : List (String × String)
  correctAnswer : List String
deriving DecidableEq, Repr

/-- Model of `Course` from `src/types/quiz.ts` (case studies omitted — unused by the
session/persistence core). -/
structure Course where
  id : String
  title : String
  quizItems : List QuizItem
  topics : List String
deriving DecidableEq, Repr

/-- The loaded course catalog (`loadCourses()` result in `quizData.ts`),
passed explicitly instead of the module-level cache. -/
abbrev Catalog := List Course

/-- Embedding of `getCourseById` (`quizData.ts` lines 329-333): `undefined`/empty id gives
`undefined`, otherwise the first course with a strictly equal id. -/
def getCourseById (catalog : Catalog) (id : Option String) : Option Course :=
  match id with
  | none => none
  | some s => if s = "" then none else catalog.find? (fun course => course.id = s)

/-- Embedding of `getQuizItems` (`quizData.ts` lines 341-350). A `topicId` that is `null`
or the empty string (falsy in `if (topicId)`) selects the whole course. -/
def getQuizItems (catalog : Catalog) (courseId : String) (topicId : Option String) :
    List QuizItem :=
  match getCourseById catalog (some courseId) with
  | none => []
  | some course =>
    match topicId with
    | some t => if t = "" then course.quizItems else
        course.quizItems.filter (fun item => item.topic = some t)
    | none => course.quizItems

/-- Embedding of `getQuestionById` (`quizData.ts` lines 352-358): guards a falsy
`courseId`, resolves the course, and returns the first quiz item whose
`String(item.id)` equals `String(questionId)`. -/
def getQuestionById (catalog : Catalog) (courseId : Option String) (questionId : QId) :
    Option QuizItem :=
  match courseId with
  | none => none
  | some cid =>
    if cid = "" then none else
      match getCourseById catalog (some cid) with
      | none => none
      | some course => course.quizItems.find? (fun item => item.id.toStr = questionId.toStr)

/-- Model of `QuizConfig` from `src/types/quiz.ts`. `kindIsFull` stands for the
`type: 'full' | 'topic'` tag (true ⇔ `'full'`); it is never read by the
core logic. -/
structure QuizConfig where
  courseId : String
  topicId : Option String
  kindIsFull : Bool
deriving DecidableEq, Repr

/-- The character class `[a-zA-Z0-9_-]` of the sanitizing regular expression
in `getQuizStateKey` (`useQuizStateManagement.ts` line 13). -/
def safeKeyChar (c : Char) : Bool :=
  c.isAlphanum || c == '_' || c == '-'

/-- Embedding of `topicPart.replace(/[^a-zA-Z0-9_-]/g, '_')`: every character outside the
safe class is replaced by `'_'`. -/
def sanitizeKeyPart (s : String) : String :=
  ⟨s.data.map (fun c => if safeKeyChar c then c else '_')⟩

/-- Embedding of `getQuizStateKey` (`useQuizStateManagement.ts` lines 9-15). A `null`
config or a falsy (empty) `courseId` yields `null`; otherwise the storage
key `quizState_<courseId>_<sanitized topic or 'full'>`. -/
def getQuizStateKey (config : Option QuizConfig) : Option String :=
  match config with
  | none => none
  | some c =>
    if c.courseId = "" then none
    else
      some ("quizState_" ++ c.courseId ++ "_" ++
        sanitizeKeyPart (match c.topicId with | none => "full" | some t => t))

/-- An in-memory per-question answer, TypeScript
`string | Set<string> | string[] | null`. `many` models a JavaScript `Set`
by its insertion-ordered element list (a real `Set` never holds duplicates;
constructions below produce duplicate-free lists, and theorems that rely on
set semantics hypothesize `Nodup`); `arr` is a plain array that has not been
converted to a `Set`. -/
inductive Ans where
  | unanswered
  | one (s : String)
  | many (l : List String)
  | arr (l : List String)
deriving DecidableEq

/-- Embedding of `new Set(arr)` for a string array: deduplicate keeping the first
occurrence, preserving insertion order (JavaScript `Set` semantics). -/
def jsSetOfList (arr : List String) : List String :=
  arr.foldl (fun acc x => if x ∈ acc then acc else acc ++ [x]) []

/-- A per-question answer as it sits in JSON storage: `null`, a string, or an
array of strings (`Set`s are serialized as arrays before writing). -/
inductive JAns where
  | jnull
  | jstr (s : String)
  | jarr (l : List String)
deriving DecidableEq, Repr

/-- The `'correct' | 'incorrect'` answer status. -/
inductive Status where
  | correct
  | incorrect
deriving DecidableEq, Repr

/-- Embedding of `isMultiSelect` (`Quiz.tsx` line 156): the answer key is always an array
here, so the check reduces to `correctAnswers.length > 1`. -/
def isMultiSelect (correctAnswers : List String) : Bool :=
  decide (1 < correctAnswers.length)

/-- Model of `SavedQuizState` from `src/types/quiz.ts`. `checkedAnswers` is optional
in the persisted shape. -/
structure SavedQuizState where
  currentIndex : Int
  userAnswers : List Ans
  startTime : Option Int
  questionIds : List QId
  courseId : String
  topicId : Option String
  checkedAnswers : Option (List Bool)
deriving DecidableEq

/-- The JSON object shape a stored quiz-state string parses to.  A field
that is absent or of the wrong runtime type is `none` (so the structural
validation in `loadQuizState` can fail on it); `courseId`/`topicId` are
never inspected by the validation, so they are kept plain. -/
structure RawState where
  currentIndex : Option Int
  userAnswers : Option (List JAns)
  startTime : Option Int
  questionIds : Option (List QId)
  courseId : String
  topicId : Option String
  checkedAnswers : Option (List Bool)
deriving DecidableEq

/-- A value found under a managed storage key: `notJson` is a string
`JSON.parse` throws on; `badShape` parses but is not an object (so the
truthiness test `parsed && …` fails); `jsonState` is an object with the
fields of `RawState`. -/
inductive StoredVal where
  | notJson
  | badShape
  | jsonState (r : RawState)
deriving DecidableEq

/-- The browser `localStorage`, restricted to the managed keys: a total map
from key to optional stored value. -/
def Storage : Type := String → Option StoredVal

/-- Embedding of `localStorage.setItem`. -/
def Storage.set (σ : Storage) (key : String) (v : StoredVal) : Storage :=
  fun k => if k = key then some v else σ k

/-- Embedding of `localStorage.removeItem`. -/
def Storage.remove (σ : Storage) (key : String) : Storage :=
  fun k => if k = key then none else σ k

/-- Serialization of one answer for storage (`saveQuizState`,
`useQuizStateManagement.ts` line 90): a `Set` becomes `Array.from(set)`,
everything else is written as-is. -/
def ansToJ : Ans → JAns
  | .unanswered => .jnull
  | .one s => .jstr s
  | .many l => .jarr l
  | .arr l => .jarr l

/-- Embedding of `saveQuizState` (`useQuizStateManagement.ts` lines 74-102), restricted to
its durable-storage effect (the React in-memory index is presentation state).
`state = none` clears the entry; otherwise the state is written with answers
serialized and `courseId`/`topicId` taken from the config. -/
def saveQuizState (config : QuizConfig) (state : Option SavedQuizState) (σ : Storage) :
    Storage :=
  match getQuizStateKey (some config) with
  | none => σ
  | some key =>
    match state with
    | none => σ.remove key
    | some s =>
      σ.set key (.jsonState
        { currentIndex := some s.currentIndex
          userAnswers := some (s.userAnswers.map ansToJ)
          startTime := s.startTime
          questionIds := some s.questionIds
          courseId := config.courseId
          topicId := config.topicId
          checkedAnswers := s.checkedAnswers })

/-- The answer-key list `question?.correctAnswer ?? []` for a persisted
question id (`useQuizStateManagement.ts` lines 127-128). -/
def correctAnswersFor (catalog : Catalog) (courseId : String) (qid : QId) : List String :=
  match getQuestionById catalog (some courseId) qid with
  | none => []
  | some q => q.correctAnswer

/-- Deserialization of one stored answer (`loadQuizState`,
`useQuizStateManagement.ts` lines 121-137): an array converts to a `Set`
only when the question (re-resolved from the catalog) is multi-select;
otherwise strings pass through and everything else becomes `null`. -/
def jAnsToAns (isMulti : Bool) : JAns → Ans
  | .jarr l => if isMulti then .many (jsSetOfList l) else .unanswered
  | .jstr s => .one s
  | .jnull => .unanswered

/-- The stored-answer list conversion: each answer is paired with the
persisted question id at the same index (the code's out-of-bounds guard at
lines 123-126 returns `null` when the ids run out). -/
def convAnswers (catalog : Catalog) (courseId : String) :
    List JAns → List QId → List Ans
  | [], _ => []
  | _ :: js, [] => .unanswered :: convAnswers catalog courseId js []
  | j :: js, qid :: qids =>
    jAnsToAns (isMultiSelect (correctAnswersFor catalog courseId qid)) j ::
      convAnswers catalog courseId js qids

/-- The `checkedAnswers` backfill (`useQuizStateManagement.ts` lines 140-142):
keep the stored list exactly when its length matches `questionIds`,
otherwise an all-`false` list of that length. -/
def backfillChecked (stored : Option (List Bool)) (len : Nat) : List Bool :=
  match stored with
  | some l => if l.length = len then l else List.replicate len false
  | none => List.replicate len false

/-- Embedding of `loadQuizState` (`useQuizStateManagement.ts` lines 105-159). Returns the
reconstructed state (or `null`) together with the storage after the call —
a corrupted or structurally invalid entry is removed (the `catch` branch).
Validation: `currentIndex` is a number, `userAnswers` and `questionIds` are
arrays of equal length. -/
def loadQuizState (config : QuizConfig) (catalog : Catalog) (σ : Storage) :
    Option SavedQuizState × Storage :=
  match getQuizStateKey (some config) with
  | none => (none, σ)
  | some key =>
    match σ key with
    | none => (none, σ)
    | some (.notJson) => (none, σ.remove key)
    | some (.badShape) => (none, σ.remove key)
    | some (.jsonState r) =>
      match r.currentIndex, r.userAnswers, r.questionIds with
      | some ci, some ua, some qids =>
        if qids.length = ua.length then
          (some
            { currentIndex := ci
              userAnswers := convAnswers catalog config.courseId ua qids
              startTime := r.startTime
              questionIds := qids
              courseId := r.courseId
              topicId := r.topicId
              checkedAnswers := some (backfillChecked r.checkedAnswers qids.length) },
            σ)
        else (none, σ.remove key)
      | _, _, _ => (none, σ.remove key)

/-- JavaScript `correctAnswers.includes(value)` where `value` is
`answer ?? ''`: a `null` answer coalesces to `''`; a `Set` or array object is
not `null`, and `includes` compares it with `===` against the string
elements, which is always false. (`Quiz.tsx` line 265.) -/
def includesCoalesced (correctAnswers : List String) : Ans → Bool
  | .unanswered => correctAnswers.contains ""
  | .one s => correctAnswers.contains s
  | .many _ => false
  | .arr _ => false

/-- The multi-select exact-match test
`correctAnswers.length === set.size && correctAnswers.every(ca => set.has(ca))`
(`Quiz.tsx` lines 199-200 and 260-261). -/
def exactSetMatch (correctAnswers : List String) (l : List String) : Bool :=
  decide (correctAnswers.length = l.length) && correctAnswers.all (fun ca => l.contains ca)

/-- Final per-question correctness in `finishQuiz` (`Quiz.tsx` lines
257-266): multi-select requires a `Set` answer matching exactly; otherwise
membership of `answer ?? ''` in the answer key. -/
def finalCorrect (q : QuizItem) (a : Ans) : Bool :=
  if isMultiSelect q.correctAnswer then
    match a with
    | .many l => exactSetMatch q.correctAnswer l
    | _ => false
  else includesCoalesced q.correctAnswer a

/-- Model of `AnswerResult` from `src/types/quiz.ts`. -/
structure AnswerResult where
  questionId : QId
  userAnswer : Ans
  correctAnswer : List String
  isCorrect : Bool
  options : List (String × String)
deriving DecidableEq

/-- Model of `QuizResults` from `src/types/quiz.ts`. `timestamp` is `none` when the
stored value is absent or not of number type; `percentage` is computed in
exact rational arithmetic (the source uses binary floating point, which
agrees on the values the claims touch). -/
structure QuizResults where
  score : Nat
  totalQuestions : Nat
  answers : List AnswerResult
  duration : Int
  questionIds : List QId
  courseId : String
  topicId : Option String
  timestamp : Option Int
  percentage : Rat
deriving DecidableEq

/-- The `answerDetails` list built by `finishQuiz` (`Quiz.tsx` lines
251-276): one result per question, the answer looked up by index
(`userAnswers[index]`, `undefined` behaving like `null` past the end). -/
def answerDetails : List QuizItem → List Ans → List AnswerResult
  | [], _ => []
  | q :: qs, [] =>
    { questionId := q.id, userAnswer := .unanswered, correctAnswer := q.correctAnswer
      isCorrect := finalCorrect q .unanswered, options := q.options } ::
      answerDetails qs []
  | q :: qs, a :: as =>
    { questionId := q.id, userAnswer := a, correctAnswer := q.correctAnswer
      isCorrect := finalCorrect q a, options := q.options } ::
      answerDetails qs as

/-- The working state of one quiz attempt — the `useState` cells of the
`Quiz` component (`Quiz.tsx` lines 26-33). -/
structure Session where
  questions : List QuizItem
  currentIndex : Int
  userAnswers : List Ans
  startTime : Option Int
  showFeedbackForSingleChoice : Bool
  answerStatuses : List (Option Status)
  checkedAnswers : List Bool
  isLoaded : Bool
deriving DecidableEq

/-- Embedding of `Math.round((endTime - startTime) / 1000)` for a non-negative
difference: add half a unit and truncate. -/
def durationSeconds (startTime endTime : Int) : Int :=
  (endTime - startTime + 500) / 1000

/-- Embedding of `finishQuiz` (`Quiz.tsx` lines 246-294): guard, per-question rescoring,
clearing the in-progress entry when the key resolves, and the emitted
`QuizResults`. Returns the emitted result (or `none` when the guard
short-circuits) together with the storage after the call. -/
def finishQuiz (config : QuizConfig) (s : Session) (σ : Storage) (now : Int) :
    Option QuizResults × Storage :=
  match s.startTime with
  | none => (none, σ)
  | some st =>
    if s.questions.length = 0 ∨ s.isLoaded = false then (none, σ)
    else
      let details := answerDetails s.questions s.userAnswers
      let score := details.countP (fun d => d.isCorrect)
      let σ' :=
        match getQuizStateKey (some config) with
        | some _ => saveQuizState config none σ
        | none => σ
      (some
        { score := score
          totalQuestions := s.questions.length
          answers := details
          duration := durationSeconds st now
          questionIds := s.questions.map (fun q => q.id)
          courseId := config.courseId
          topicId := config.topicId
          timestamp := some now
          percentage :=
            if 0 < s.questions.length then (score : Rat) / (s.questions.length : Rat) * 100
            else 0 },
        σ')

/-- One insertion step of the comparator-driven shuffle
`[...questions].sort(() => 0.5 - Math.random())` (`Quiz.tsx` line 111),
modelled as the insertion sort JavaScript engines use on short arrays. The
first list is the already-processed prefix in reversed order (head =
nearest left neighbour). Each comparator call consumes one coin: `true`
stands for a positive comparator value (probability 1/2 under
`Math.random`), which shifts the inserted element one place further left;
an exhausted stream behaves like a non-positive comparator. -/
def coinInsertRev {α : Type} (x : α) : List α → List Bool → List α × List Bool
  | [], coins => ([x], coins)
  | y :: ys, [] => (x :: y :: ys, [])
  | y :: ys, c :: cs =>
    if c then
      let r := coinInsertRev x ys cs
      (y :: r.1, r.2)
    else (x :: y :: ys, cs)

/-- The full comparator-driven shuffle: insert each element in turn into the
processed prefix, then restore left-to-right order. -/
def sortShuffle {α : Type} (l : List α) (coins : List Bool) : List α :=
  (l.foldl (fun (acc : List α × List Bool) x => coinInsertRev x acc.1 acc.2)
    ([], coins)).1.reverse

/-- Modelled from the spec: the Fisher–Yates shuffle §4.4 claims
("for index from last to first, swap with a uniformly chosen index in
`[0, index]`"), for comparison with `sortShuffle`, the shuffle the source
actually performs. `choices` supplies the chosen index for positions
`n-1, n-2, …, 1`; a choice is used modulo `index+1` so every choice list is
a valid run. -/
def swapAt {α : Type} (l : List α) (i j : Nat) : List α :=
  match l.get? i, l.get? j with
  | some a, some b => (l.set i b).set j a
  | _, _ => l

/-- Modelled from the spec: iterate Fisher–Yates from index `i` down to 1. -/
def fyAux {α : Type} : Nat → List α → List Nat → List α
  | 0, l, _ => l
  | _ + 1, l, [] => l
  | i + 1, l, j :: js => fyAux i (swapAt l (i + 1) (j % (i + 2))) js

/-- Modelled from the spec: the complete Fisher–Yates shuffle. -/
def fyShuffle {α : Type} (l : List α) (choices : List Nat) : List α :=
  match l.length with
  | 0 => l
  | n + 1 => fyAux n l choices

/-- All coin streams of a given length, each equally likely under the fair
comparator coin. -/
def allStreams : Nat → List (List Bool)
  | 0 => [[]]
  | n + 1 => (allStreams n).flatMap (fun cs => [false :: cs, true :: cs])

/-- Clamping of a resumed `currentIndex` (`Quiz.tsx` line 93):
`savedState.currentIndex < loadedQuestions.length ? savedState.currentIndex : 0`.
Note there is no lower bound check. -/
def clampIndex (i : Int) (len : Nat) : Int :=
  if i < (len : Int) then i else 0

/-- The second answer-conversion pass of the resume branch (`Quiz.tsx` lines
67-75): over the saved answers, paired by index with the already-filtered
question list; a missing question yields `null`; an array converts to a
`Set` only for a multi-select question; the TypeScript cast
`ans as string | null` leaves every other value unchanged. -/
def reconvAnswers : List QuizItem → List Ans → List Ans
  | _, [] => []
  | [], _ :: as => .unanswered :: reconvAnswers [] as
  | q :: qs, a :: as =>
    (match a with
     | .arr l => if isMultiSelect q.correctAnswer then .many (jsSetOfList l) else .arr l
     | other => other) :: reconvAnswers qs as

/-- Status restoration on resume (`Quiz.tsx` lines 83-89): `null` for a
missing question, for every multi-select question and for a `null` answer;
otherwise correct iff `correctAnswer.includes(userAns)` (a non-string answer
value never equals a string element, hence `incorrect`). -/
def statusFor (q : QuizItem) (a : Ans) : Option Status :=
  if isMultiSelect q.correctAnswer then none
  else
    match a with
    | .unanswered => none
    | .one s => some (if q.correctAnswer.contains s then .correct else .incorrect)
    | .many _ => some .incorrect
    | .arr _ => some .incorrect

/-- The `loadedStatuses` list of the resume branch, answers paired with
questions by index (`loadedQuestions[idx]` is `undefined` past the end). -/
def resumeStatuses : List QuizItem → List Ans → List (Option Status)
  | _, [] => []
  | [], _ :: as => none :: resumeStatuses [] as
  | q :: qs, a :: as => statusFor q a :: resumeStatuses qs as

/-- The resume branch of the load effect (`Quiz.tsx` lines 51-105): rebuild
the question list from the saved ids (unresolvable ids are dropped by the
`filter`), reconvert answers, backfill `checkedAnswers`, restore statuses,
clamp the index, and fall back to `now` for a missing `startTime`. -/
def resumeSession (catalog : Catalog) (config : QuizConfig) (saved : SavedQuizState)
    (now : Int) : Session :=
  let loadedQuestions :=
    saved.questionIds.filterMap (fun id => getQuestionById catalog (some config.courseId) id)
  let answersWithSets := reconvAnswers loadedQuestions saved.userAnswers
  let loadedCheckedAnswers := backfillChecked saved.checkedAnswers loadedQuestions.length
  let loadedStatuses := resumeStatuses loadedQuestions answersWithSets
  let loadedIndex := clampIndex saved.currentIndex loadedQuestions.length
  { questions := loadedQuestions
    currentIndex := loadedIndex
    userAnswers := answersWithSets
    startTime := some (match saved.startTime with | some t => t | none => now)
    checkedAnswers := loadedCheckedAnswers
    answerStatuses := loadedStatuses
    showFeedbackForSingleChoice :=
      decide (0 ≤ loadedIndex) && decide (loadedIndex.toNat < loadedStatuses.length) &&
        (loadedStatuses.getD loadedIndex.toNat none).isSome &&
        decide (loadedIndex.toNat < loadedQuestions.length) &&
        !(isMultiSelect ((loadedQuestions.getD loadedIndex.toNat
            ⟨.str "", none, "", [], []⟩).correctAnswer))
    isLoaded := true }

/-- The initialize branch of the load effect (`Quiz.tsx` lines 107-124):
fetch the questions for the configuration, shuffle a copy, and start a
fresh session. -/
def initSession (catalog : Catalog) (config : QuizConfig) (coins : List Bool)
    (now : Int) : Session :=
  let questionsToUse := sortShuffle (getQuizItems catalog config.courseId config.topicId) coins
  let numQuestions := questionsToUse.length
  { questions := questionsToUse
    currentIndex := 0
    userAnswers := List.replicate numQuestions .unanswered
    startTime := some now
    showFeedbackForSingleChoice := false
    answerStatuses := List.replicate numQuestions none
    checkedAnswers := List.replicate numQuestions false
    isLoaded := true }

/-- The sort key `(r.timestamp ?? 0)` of the history comparator
(`App.tsx` line 92). -/
def tsKey (r : QuizResults) : Int :=
  match r.timestamp with
  | some t => t
  | none => 0

/-- The timestamp `handleAddResult` assigns
(`typeof newResult.timestamp === 'number' ? newResult.timestamp : Date.now()`,
`App.tsx` line 88). -/
def assignedTs (newResult : QuizResults) (now : Int) : Int :=
  match newResult.timestamp with
  | some t => t
  | none => now

/-- Embedding of `handleAddResult` (`App.tsx` lines 84-95): make the timestamp numeric
(falling back to `Date.now()`), drop any existing entry with exactly that
timestamp, append, sort ascending by timestamp (a stable sort, as
`Array.prototype.sort` is), and keep the last 50 entries (`slice(-50)`). -/
def handleAddResult (prevHistory : List QuizResults) (newResult : QuizResults)
    (now : Int) : List QuizResults :=
  let resultToAdd := { newResult with timestamp := some (assignedTs newResult now) }
  let otherResults := prevHistory.filter (fun r => r.timestamp ≠ resultToAdd.timestamp)
  let updatedResults :=
    (otherResults ++ [resultToAdd]).insertionSort (fun a b => tsKey a ≤ tsKey b)
  updatedResults.drop (updatedResults.length - 50)

/-- The structural validation `loadQuizState` performs on a stored value
(`useQuizStateManagement.ts` line 119): the value parses to an object whose
`currentIndex` is a number and whose `userAnswers` and `questionIds` are
arrays of equal length. -/
def structurallyValid : StoredVal → Prop
  | .notJson => False
  | .badShape => False
  | .jsonState r =>
    ∃ ci ua qids, r.currentIndex = some ci ∧ r.userAnswers = some ua ∧
      r.questionIds = some qids ∧ qids.length = ua.length

/-- The net effect of `saveQuizState` followed by `loadQuizState` on one
in-memory answer whose question has multi-select flag `isMulti`: a `Set` is
serialized to an array and deserialized back to a `Set` exactly when the
question is multi-select (otherwise the array coerces to `null`); a string
or `null` passes through unchanged. -/
def rtAns (isMulti : Bool) : Ans → Ans
  | .unanswered => .unanswered
  | .one s => .one s
  | .many l => if isMulti then .many (jsSetOfList l) else .unanswered
  | .arr l => if isMulti then .many (jsSetOfList l) else .unanswered

/-- The map of `rtAns` across an answer list, each answer paired with the
persisted question id at the same index (mirroring `convAnswers`). -/
def roundTripAnswers (catalog : Catalog) (courseId : String) :
    List Ans → List QId → List Ans
  | [], _ => []
  | _ :: as, [] => .unanswered :: roundTripAnswers catalog courseId as []
  | a :: as, qid :: qids =>
    rtAns (isMultiSelect (correctAnswersFor catalog courseId qid)) a ::
      roundTripAnswers catalog courseId as qids

/-- The six equally likely index-choice lists of a Fisher–Yates run on a
3-element list: the swap index for position 2 ranges over `[0,2]`, the one
for position 1 over `[0,1]`. -/
def fyChoices3 : List (List Nat) :=
  [[0, 0], [0, 1], [1, 0], [1, 1], [2, 0], [2, 1]]

/-- The history comparator's order is total, so `insertionSort` sorts. -/
instance : IsTotal QuizResults (fun a b => tsKey a ≤ tsKey b) :=
  ⟨fun a b => le_total (tsKey a) (tsKey b)⟩

/-- The history comparator's order is transitive. -/
instance : IsTrans QuizResults (fun a b => tsKey a ≤ tsKey b) :=
  ⟨fun _ _ _ hab hbc => le_trans hab hbc⟩

/-- A minimal completed-attempt record carrying only a timestamp, used to
exercise the history cap. -/
def simpleResult (t : Nat) : QuizResults :=
  { score := 0, totalQuestions := 0, answers := [], duration := 0, questionIds := []
    courseId := "c1", topicId := none, timestamp := some (t : Int), percentage := 0 }

/-- Fixture: a single-select question (`correctAnswer = ['A']`). -/
def qSingleW : QuizItem :=
  { id := .num 1, topic := some "t1", question := "q1"
    options := [("A", "a"), ("B", "b")], correctAnswer := ["A"] }

/-- Fixture: a multi-select question (`correctAnswer = ['A','B']`). -/
def qMultiW : QuizItem :=
  { id := .num 2, topic := some "t1", question := "q2"
    options := [("A", "a"), ("B", "b"), ("C", "c")], correctAnswer := ["A", "B"] }

/-- Fixture: a one-course catalog holding the two questions above. -/
def catW : Catalog :=
  [{ id := "c1", title := "Course 1", quizItems := [qSingleW, qMultiW], topics := ["t1"] }]

/-- Fixture: the full-course configuration for the fixture catalog. -/
def cfgW : QuizConfig := { courseId := "c1", topicId := none, kindIsFull := true }

/-- Fixture: an empty storage. -/
def σEmptyW : Storage := fun _ => none

/-- Fixture: a well-formed saved state for `cfgW` over `catW` — one answered
single-select question and one multi-select answer held as a `Set`. -/
def savedW : SavedQuizState :=
  { currentIndex := 1, userAnswers := [.one "A", .many ["A", "B"]]
    startTime := some 100, questionIds := [.num 1, .num 2]
    courseId := "c1", topicId := none, checkedAnswers := none }

/-- Fixture: a saved state for a resumed session holding one multi-select
question whose answer exactly matches the key and whose checked flag is
`true`. -/
def savedMultiCheckedW : SavedQuizState :=
  { currentIndex := 0, userAnswers := [.many ["A", "B"]]
    startTime := some 5, questionIds := [.num 2]
    courseId := "c1", topicId := none, checkedAnswers := some [true] }

/-- Fixture: a session about to finish — one single-select question answered
correctly. -/
def sessW : Session :=
  { questions := [qSingleW], currentIndex := 0, userAnswers := [.one "A"]
    startTime := some 0, showFeedbackForSingleChoice := true
    answerStatuses := [some .correct], checkedAnswers := [false], isLoaded := true }

/-! ## Helper lemmas -/

/-- List lemma: `find?` returns the first element satisfying the predicate. -/
theorem find?_append_first {α : Type} (p : α → Bool) (pre suf : List α) (a : α)
    (ha : p a = true) (hpre : ∀ x ∈ pre, p x = false) :
    (pre ++ a :: suf).find? p = some a := by
  induction pre with
  | nil => simp [List.find?_cons, ha]
  | cons x xs ih =>
    have hx : p x = false := hpre x (by simp)
    simp only [List.cons_append, List.find?_cons, hx]
    exact ih (fun y hy => hpre y (by simp [hy]))

/-- Rebuilding a JavaScript `Set` from its own element list is the
identity: deduplication does nothing to a duplicate-free list. -/
theorem jsSetOfList_eq_self (l : List String) (h : l.Nodup) : jsSetOfList l = l := by
  suffices H : ∀ (l : List String) (acc : List String), l.Nodup →
      (∀ x ∈ l, x ∉ acc) →
      l.foldl (fun acc x => if x ∈ acc then acc else acc ++ [x]) acc = acc ++ l by
    simpa using H l [] h (by simp)
  intro l
  induction l with
  | nil => intro acc _ _; simp
  | cons x xs ih =>
    intro acc hnd hdisj
    have hx : x ∉ acc := hdisj x (by simp)
    simp only [List.foldl_cons, if_neg hx]
    rw [ih (acc ++ [x]) hnd.of_cons]
    · simp
    · intro y hy
      simp only [List.mem_append, List.mem_singleton]
      rintro (hya | rfl)
      · exact hdisj y (by simp [hy]) hya
      · exact (List.nodup_cons.mp hnd).1 hy

/-- Serialize-then-deserialize acts on each answer as `rtAns`. -/
theorem convAnswers_map_ansToJ (catalog : Catalog) (courseId : String) :
    ∀ (ua : List Ans) (qids : List QId),
      convAnswers catalog courseId (ua.map ansToJ) qids =
        roundTripAnswers catalog courseId ua qids := by
  intro ua
  induction ua with
  | nil => intro qids; cases qids <;> rfl
  | cons a as ih =>
    intro qids
    cases qids with
    | nil =>
      cases a <;> simp [convAnswers, roundTripAnswers, ansToJ, jAnsToAns, ih]
    | cons qid qids =>
      cases a <;>
        simp [convAnswers, roundTripAnswers, ansToJ, jAnsToAns, rtAns, ih]

/-- One comparator-driven insertion step permutes: the result holds the
inserted element together with the previous prefix. -/
theorem coinInsertRev_perm {α : Type} (x : α) :
    ∀ (l : List α) (cs : List Bool), (coinInsertRev x l cs).1.Perm (x :: l) := by
  intro l
  induction l with
  | nil => intro cs; simp [coinInsertRev]
  | cons y ys ih =>
    intro cs
    cases cs with
    | nil => simp [coinInsertRev]
    | cons c cs =>
      cases c with
      | true =>
        simp only [coinInsertRev, if_pos]
        exact ((ih cs).cons y).trans (List.Perm.swap x y ys)
      | false => simp [coinInsertRev]

/-- The comparator-driven shuffle outputs a permutation of its input. -/
theorem sortShuffle_perm {α : Type} (l : List α) (coins : List Bool) :
    (sortShuffle l coins).Perm l := by
  have H : ∀ (l : List α) (acc : List α × List Bool),
      ((l.foldl (fun acc x => coinInsertRev x acc.1 acc.2) acc).1).Perm (l ++ acc.1) := by
    intro l
    induction l with
    | nil => intro acc; simp
    | cons x xs ih =>
      intro acc
      simp only [List.foldl_cons]
      refine (ih (coinInsertRev x acc.1 acc.2)).trans ?_
      exact ((coinInsertRev_perm x acc.1 acc.2).append_left xs).trans List.perm_middle
  have h1 := H l ([], coins)
  simp only [List.append_nil] at h1
  exact (List.reverse_perm _).trans h1

/-! ## Claim theorems -/

/-- C9: `getQuizStateKey` returns `null` exactly when the config is null or
its `courseId` is empty; otherwise it returns the deterministic string
`quizState_ + courseId + _ + sanitize(topicId ?? 'full')`, where `sanitize`
(`sanitizeKeyPart`) replaces every character outside `[A-Za-z0-9_-]` with
`'_'`; two configs agreeing on `(courseId, topicId)` produce the same
identity, and a null `topicId` uses the literal `full` token. The embedding
is a pure function, so freedom from side effects is inherent. -/
theorem claim_C9_identity_resolver :
    (getQuizStateKey none = none) ∧
    (∀ c : QuizConfig, getQuizStateKey (some c) = none ↔ c.courseId = "") ∧
    (∀ c : QuizConfig, c.courseId ≠ "" →
      getQuizStateKey (some c) =
        some ("quizState_" ++ c.courseId ++ "_" ++ sanitizeKeyPart (c.topicId.getD "full"))) ∧
    (∀ c₁ c₂ : QuizConfig, c₁.courseId = c₂.courseId → c₁.topicId = c₂.topicId →
      getQuizStateKey (some c₁) = getQuizStateKey (some c₂)) ∧
    (∀ c : QuizConfig, c.courseId ≠ "" → c.topicId = none →
      getQuizStateKey (some c) =
        some ("quizState_" ++ c.courseId ++ "_" ++ "full")) := by
  refine ⟨rfl, ?_, ?_, ?_, ?_⟩
  · intro c
    constructor
    · intro h
      by_contra hne
      simp [getQuizStateKey, hne] at h
    · intro h
      simp [getQuizStateKey, h]
  · intro c h
    cases htp : c.topicId <;> simp [getQuizStateKey, h, htp, Option.getD]
  · intro c₁ c₂ h1 h2
    simp [getQuizStateKey, h1, h2]
  · intro c h1 h2
    have hfull : sanitizeKeyPart "full" = "full" := by decide
    simp [getQuizStateKey, h1, h2, hfull]

/-- C9 witness: a config with spaces and an ampersand in the topic id gets
the sanitized deterministic key; the `full` token appears for a null topic. -/
theorem claim_C9_witness :
    getQuizStateKey (some ⟨"gcp-ace", some "IAM & Admin", false⟩) =
      some ("quizState_" ++ "gcp-ace" ++ "_" ++ sanitizeKeyPart "IAM & Admin") ∧
    getQuizStateKey (some ⟨"gcp-ace", none, true⟩) =
      some ("quizState_" ++ "gcp-ace" ++ "_" ++ "full") :=
  ⟨claim_C9_identity_resolver.2.2.1 ⟨"gcp-ace", some "IAM & Admin", false⟩ (by decide),
   claim_C9_identity_resolver.2.2.2.2 ⟨"gcp-ace", none, true⟩ (by decide) rfl⟩

/-- C10: `getQuestionById` compares ids after `String(...)` coercion
(`QId.toStr`): when the course resolves, the result is the first quiz item
whose coerced id equals the coerced query id (so a numeric id and its
decimal string form resolve identically), and the lookup is `undefined`
when the course id is missing, unknown, or no item matches. -/
theorem claim_C10_question_lookup :
    (∀ (catalog : Catalog) (qid : QId), getQuestionById catalog none qid = none) ∧
    (∀ (catalog : Catalog) (cid : String) (qid : QId),
      getCourseById catalog (some cid) = none →
      getQuestionById catalog (some cid) qid = none) ∧
    (∀ (catalog : Catalog) (cid : String) (course : Course) (qid : QId),
      getCourseById catalog (some cid) = some course →
      getQuestionById catalog (some cid) qid =
        course.quizItems.find? (fun item => item.id.toStr = qid.toStr)) ∧
    (∀ (catalog : Catalog) (cid : Option String) (n : Int),
      getQuestionById catalog cid (.num n) =
        getQuestionById catalog cid (.str (toString n))) ∧
    (∀ (catalog : Catalog) (cid : String) (course : Course) (qid : QId) (q : QuizItem),
      getCourseById catalog (some cid) = some course →
      getQuestionById catalog (some cid) qid = some q → q.id.toStr = qid.toStr) ∧
    (∀ (catalog : Catalog) (cid : String) (course : Course) (qid : QId)
       (pre suf : List QuizItem) (q : QuizItem),
      getCourseById catalog (some cid) = some course →
      course.quizItems = pre ++ q :: suf →
      q.id.toStr = qid.toStr →
      (∀ x ∈ pre, x.id.toStr ≠ qid.toStr) →
      getQuestionById catalog (some cid) qid = some q) := by
  have hne : ∀ (catalog : Catalog) (cid : String) (course : Course),
      getCourseById catalog (some cid) = some course → cid ≠ "" := by
    intro catalog cid course h hemp
    subst hemp
    simp [getCourseById] at h
  have hfind : ∀ (catalog : Catalog) (cid : String) (course : Course) (qid : QId),
      getCourseById catalog (some cid) = some course →
      getQuestionById catalog (some cid) qid =
        course.quizItems.find? (fun item => item.id.toStr = qid.toStr) := by
    intro catalog cid course qid h
    simp [getQuestionById, hne catalog cid course h, h]
  refine ⟨fun _ _ => rfl, ?_, hfind, ?_, ?_, ?_⟩
  · intro catalog cid qid h
    by_cases hemp : cid = ""
    · simp [getQuestionById, hemp]
    · simp [getQuestionById, hemp, h]
  · intro catalog cid n
    rfl
  · intro catalog cid course qid q hcourse hq
    rw [hfind catalog cid course qid hcourse] at hq
    have := List.find?_some hq
    simpa using this
  · intro catalog cid course qid pre suf q hcourse hitems hid hpre
    rw [hfind catalog cid course qid hcourse, hitems]
    exact find?_append_first _ pre suf q (by simp [hid])
      (fun x hx => by simp [hpre x hx])

/-- C10 witness: in the fixture catalog, looking up question 2 by its
numeric id and by its decimal string form both return the multi-select
fixture question. -/
theorem claim_C10_witness :
    getQuestionById catW (some "c1") (.num 2) =
      [qSingleW, qMultiW].find? (fun item => item.id.toStr = (QId.num 2).toStr) ∧
    getQuestionById catW (some "c1") (.num 2) =
      getQuestionById catW (some "c1") (.str (toString (2 : Int))) :=
  ⟨claim_C10_question_lookup.2.2.1 catW "c1"
      ⟨"c1", "Course 1", [qSingleW, qMultiW], ["t1"]⟩ (.num 2) (by decide),
   claim_C10_question_lookup.2.2.2.1 catW (some "c1") 2⟩

/-- C7: for every stored value under a managed quiz-state key that is not
valid JSON or fails the structural validation (`currentIndex` numeric,
`userAnswers`/`questionIds` arrays of equal length), `loadQuizState`
returns `null` and removes the offending key, which therefore no longer
exists in the resulting storage. The embedding is a total function, so no
exception escapes to the caller. -/
theorem claim_C7_corruption_self_heal
    (config : QuizConfig) (catalog : Catalog) (σ : Storage) (key : String) (v : StoredVal)
    (hkey : getQuizStateKey (some config) = some key)
    (hv : σ key = some v)
    (hbad : ¬ structurallyValid v) :
    (loadQuizState config catalog σ).1 = none ∧
    (loadQuizState config catalog σ).2 key = none := by
  cases v with
  | notJson => simp [loadQuizState, hkey, hv, Storage.remove]
  | badShape => simp [loadQuizState, hkey, hv, Storage.remove]
  | jsonState r =>
    cases hci : r.currentIndex with
    | none => simp [loadQuizState, hkey, hv, hci, Storage.remove]
    | some ci =>
      cases hua : r.userAnswers with
      | none => simp [loadQuizState, hkey, hv, hci, hua, Storage.remove]
      | some ua =>
        cases hqi : r.questionIds with
        | none => simp [loadQuizState, hkey, hv, hci, hua, hqi, Storage.remove]
        | some qids =>
          have hlen : qids.length ≠ ua.length := by
            intro h
            exact hbad ⟨ci, ua, qids, hci, hua, hqi, h⟩
          simp [loadQuizState, hkey, hv, hci, hua, hqi, hlen, Storage.remove]

/-- C7 witness: a raw non-JSON string stored under the fixture key is
reported as absent and scrubbed from storage. -/
theorem claim_C7_witness :
    (loadQuizState cfgW catW
        (fun k => if k = "quizState_c1_full" then some .notJson else none)).1 = none ∧
    (loadQuizState cfgW catW
        (fun k => if k = "quizState_c1_full" then some .notJson else none)).2
      "quizState_c1_full" = none :=
  claim_C7_corruption_self_heal cfgW catW _ "quizState_c1_full" .notJson
    (by decide) (by decide) (by simp [structurallyValid])

/-- C1: `finishQuiz` recomputes each question's correctness from the stored
answer alone — the cached `answerStatuses` never influence the result — and
the emitted score counts the correct questions. For a single-select
question (answer key of length ≤ 1) the per-question flag is exactly
`correctAnswers.includes(answer ?? '')` (`includesCoalesced`), so a null
answer is incorrect whenever `''` is not itself an answer key; for a
multi-select question the flag holds exactly for a `Set` answer of the
same size as `correctAnswers` containing every correct key, and any
non-`Set` answer is incorrect. -/
theorem claim_C1_finish_scoring :
    (∀ (q : QuizItem) (a : Ans), q.correctAnswer.length ≤ 1 →
      finalCorrect q a = includesCoalesced q.correctAnswer a) ∧
    (∀ q : QuizItem, q.correctAnswer.length ≤ 1 → "" ∉ q.correctAnswer →
      finalCorrect q .unanswered = false) ∧
    (∀ (q : QuizItem) (l : List String), 1 < q.correctAnswer.length →
      (finalCorrect q (.many l) = true ↔
        q.correctAnswer.length = l.length ∧ ∀ c ∈ q.correctAnswer, c ∈ l)) ∧
    (∀ (q : QuizItem) (a : Ans), 1 < q.correctAnswer.length → (∀ l, a ≠ .many l) →
      finalCorrect q a = false) ∧
    (∀ (config : QuizConfig) (s : Session) (σ : Storage) (now : Int),
      (finishQuiz config s σ now).1.isSome = true →
      (finishQuiz config s σ now).1.map (fun r => r.answers) =
        some (answerDetails s.questions s.userAnswers) ∧
      (finishQuiz config s σ now).1.map (fun r => r.score) =
        some ((answerDetails s.questions s.userAnswers).countP (fun d => d.isCorrect))) ∧
    (∀ (config : QuizConfig) (s : Session) (σ : Storage) (now : Int)
       (statuses : List (Option Status)),
      finishQuiz config { s with answerStatuses := statuses } σ now =
        finishQuiz config s σ now) := by
  have hsingle : ∀ (q : QuizItem) (a : Ans), q.correctAnswer.length ≤ 1 →
      finalCorrect q a = includesCoalesced q.correctAnswer a := by
    intro q a h
    have hm : isMultiSelect q.correctAnswer = false := by
      simp [isMultiSelect]; omega
    simp [finalCorrect, hm]
  refine ⟨hsingle, ?_, ?_, ?_, ?_, ?_⟩
  · intro q h hne
    rw [hsingle q .unanswered h]
    simpa [includesCoalesced] using hne
  · intro q l h
    have hm : isMultiSelect q.correctAnswer = true := by
      simp [isMultiSelect]; omega
    simp [finalCorrect, hm, exactSetMatch, List.all_eq_true]
  · intro q a h hne
    have hm : isMultiSelect q.correctAnswer = true := by
      simp [isMultiSelect]; omega
    cases a with
    | many l => exact absurd rfl (hne l)
    | unanswered => simp [finalCorrect, hm]
    | one s => simp [finalCorrect, hm]
    | arr l => simp [finalCorrect, hm]
  · intro config s σ now hdone
    cases hst : s.startTime with
    | none => simp [finishQuiz, hst] at hdone
    | some st =>
      by_cases hguard : s.questions.length = 0 ∨ s.isLoaded = false
      · simp only [finishQuiz, hst] at hdone
        rw [if_pos hguard] at hdone
        simp at hdone
      · refine ⟨?_, ?_⟩ <;>
        · simp only [finishQuiz, hst]
          rw [if_neg hguard]
          rfl
  · intro config s σ now statuses
    rfl

/-- C1 witness: a null answer on a single-select question whose key lacks
`''` scores incorrect; a `Set` answer equal to a two-element key scores
correct by the exact-match characterization; the emitted score of the
fixture session is the count of its correct answers. -/
theorem claim_C1_witness :
    finalCorrect qSingleW .unanswered = false ∧
    (finalCorrect qMultiW (.many ["A", "B"]) = true ↔
      qMultiW.correctAnswer.length = (["A", "B"] : List String).length ∧
        ∀ c ∈ qMultiW.correctAnswer, c ∈ (["A", "B"] : List String)) ∧
    (finishQuiz cfgW sessW σEmptyW 1000).1.map (fun r => r.score) =
      some ((answerDetails sessW.questions sessW.userAnswers).countP (fun d => d.isCorrect)) :=
  ⟨claim_C1_finish_scoring.2.1 qSingleW (by decide) (by decide),
   claim_C1_finish_scoring.2.2.1 qMultiW ["A", "B"] (by decide),
   (claim_C1_finish_scoring.2.2.2.2.1 cfgW sessW σEmptyW 1000 (by decide)).2⟩

/-- C3: whenever `finishQuiz` emits a completion result, the in-progress
saved state for the quiz's identity has been deleted from storage, so
`loadQuizState` on the same config finds nothing. -/
theorem claim_C3_finish_clears
    (config : QuizConfig) (catalog : Catalog) (s : Session) (σ : Storage) (now : Int)
    (hdone : (finishQuiz config s σ now).1.isSome = true) :
    (loadQuizState config catalog (finishQuiz config s σ now).2).1 = none := by
  cases hst : s.startTime with
  | none => simp [finishQuiz, hst] at hdone
  | some st =>
    by_cases hguard : s.questions.length = 0 ∨ s.isLoaded = false
    · simp only [finishQuiz, hst] at hdone
      rw [if_pos hguard] at hdone
      simp at hdone
    · cases hkey : getQuizStateKey (some config) with
      | none =>
        simp only [finishQuiz, hst]
        rw [if_neg hguard]
        simp [loadQuizState, hkey]
      | some key =>
        simp only [finishQuiz, hst]
        rw [if_neg hguard]
        simp [loadQuizState, hkey, saveQuizState, Storage.remove]

/-- C3 witness: finishing the fixture session deletes the fixture key, and
a reload for the same config returns `null`. -/
theorem claim_C3_witness :
    (loadQuizState cfgW catW (finishQuiz cfgW sessW
        (fun k => if k = "quizState_c1_full" then some .badShape else none) 1000).2).1 = none :=
  claim_C3_finish_clears cfgW catW sessW
    (fun k => if k = "quizState_c1_full" then some .badShape else none) 1000 (by decide)

/-- C2: for a config with a resolvable identity and a well-formed saved
state (matching lengths, `courseId`/`topicId` agreeing with the config —
which is how the session engine always calls `save`), `save` followed by
`load` over a fixed catalog returns the state unchanged except that each
answer undergoes `rtAns`: an answer stored as an array (a serialized `Set`
or an in-memory array) is converted back to a `Set` exactly when the
question resolved from the catalog by the persisted id at the same index
is multi-select, every other answer passes through as string or null, and
`checkedAnswers` is backfilled to an all-false list of `questionIds`'
length when absent or length-mismatched. A genuine `Set` (duplicate-free
list) at a multi-select question is preserved verbatim. -/
theorem claim_C2_round_trip :
    (∀ (config : QuizConfig) (catalog : Catalog) (σ : Storage) (S : SavedQuizState)
       (key : String),
      getQuizStateKey (some config) = some key →
      S.userAnswers.length = S.questionIds.length →
      S.courseId = config.courseId →
      S.topicId = config.topicId →
      (loadQuizState config catalog (saveQuizState config (some S) σ)).1 =
        some { S with
                userAnswers :=
                  roundTripAnswers catalog config.courseId S.userAnswers S.questionIds
                checkedAnswers :=
                  some (backfillChecked S.checkedAnswers S.questionIds.length) }) ∧
    (∀ l : List String, l.Nodup → rtAns true (.many l) = .many l) ∧
    (∀ (b : Bool) (s : String), rtAns b (.one s) = .one s ∧ rtAns b .unanswered = .unanswered) ∧
    (∀ l : List String, rtAns false (.arr l) = .unanswered ∧ rtAns false (.many l) = .unanswered) := by
  refine ⟨?_, ?_, ?_, ?_⟩
  · intro config catalog σ S key hkey hlen hcid htid
    have hlen' : S.questionIds.length = (S.userAnswers.map ansToJ).length := by
      simp [hlen]
    simp only [saveQuizState, loadQuizState, hkey, Storage.set, if_pos]
    rw [if_pos hlen']
    rw [convAnswers_map_ansToJ]
    simp [hcid, htid]
  · intro l h
    simp [rtAns, jsSetOfList_eq_self l h]
  · intro b s
    exact ⟨rfl, rfl⟩
  · intro l
    exact ⟨rfl, rfl⟩

/-- C2 witness: the fixture state (a string answer on the single-select
question, a `Set` answer on the multi-select one, no stored
`checkedAnswers`) survives the round trip with the `Set` preserved and
`checkedAnswers` backfilled to `[false, false]`. -/
theorem claim_C2_witness :
    (loadQuizState cfgW catW (saveQuizState cfgW (some savedW) σEmptyW)).1 =
      some { savedW with
              userAnswers := roundTripAnswers catW cfgW.courseId savedW.userAnswers savedW.questionIds
              checkedAnswers := some (backfillChecked savedW.checkedAnswers savedW.questionIds.length) } ∧
    rtAns true (.many ["A", "B"]) = .many ["A", "B"] :=
  ⟨claim_C2_round_trip.1 cfgW catW σEmptyW savedW "quizState_c1_full"
      (by decide) (by decide) rfl rfl,
   claim_C2_round_trip.2.1 ["A", "B"] (by decide)⟩

/-- C4 counterexample: the source shuffles with
`[...questions].sort(() => 0.5 - Math.random())`, not Fisher–Yates. Over
the 8 equally likely comparator-coin streams of a 3-element shuffle, the
identity permutation arises from 2 streams (probability 1/4) while
`[0, 2, 1]` arises from 1 (probability 1/8) — the outcome distribution is
not uniform, so the output is not the unbiased permutation the claim
asserts; the spec-modelled Fisher–Yates (`fyShuffle`), by contrast, reaches
each of those permutations from exactly 1 of its 6 equally likely
index-choice lists. -/
theorem claim_C4_counterexample :
    (allStreams 3).length = 8 ∧
    (allStreams 3).countP (fun cs => sortShuffle [0, 1, 2] cs == [0, 1, 2]) = 2 ∧
    (allStreams 3).countP (fun cs => sortShuffle [0, 1, 2] cs == [0, 2, 1]) = 1 ∧
    (allStreams 3).countP (fun cs => sortShuffle [0, 1, 2] cs == [0, 1, 2]) ≠
      (allStreams 3).countP (fun cs => sortShuffle [0, 1, 2] cs == [0, 2, 1]) ∧
    fyChoices3.length = 6 ∧
    fyChoices3.countP (fun ch => fyShuffle [0, 1, 2] ch == [0, 1, 2]) = 1 ∧
    fyChoices3.countP (fun ch => fyShuffle [0, 1, 2] ch == [0, 2, 1]) = 1 := by
  decide

/-- C4 amended: the question list of a fresh session is produced by sorting
a copy of the catalog's questions for `(courseId, topicId)` with a random
comparator — not by Fisher–Yates, and the resulting permutation is biased.
What survives of the claim: for every input list the output is a
permutation of the same elements (same multiset), the source list is not
mutated (the embedding is pure and sorts a copy), and with a fixed
injected coin stream the output is deterministic. -/
theorem claim_C4_amended :
    (∀ (l : List Nat) (coins : List Bool), (sortShuffle l coins).Perm l) ∧
    (∀ (catalog : Catalog) (config : QuizConfig) (coins : List Bool) (now : Int),
      ((initSession catalog config coins now).questions).Perm
        (getQuizItems catalog config.courseId config.topicId)) ∧
    (∀ (l : List Nat) (coins coins' : List Bool), coins = coins' →
      sortShuffle l coins = sortShuffle l coins') := by
  refine ⟨fun l coins => sortShuffle_perm l coins, ?_, ?_⟩
  · intro catalog config coins now
    exact sortShuffle_perm _ coins
  · intro l coins coins' h
    rw [h]

/-- C4 amended witness: the shuffle of the fixture course's question list
under one concrete coin stream is a permutation of it; determinism at a
concrete stream. -/
theorem claim_C4_witness :
    ((initSession catW cfgW [true, false] 7).questions).Perm
      (getQuizItems catW cfgW.courseId cfgW.topicId) ∧
    sortShuffle [0, 1, 2] [true, true, false] = sortShuffle [0, 1, 2] [true, true, false] :=
  ⟨claim_C4_amended.2.1 catW cfgW [true, false] 7,
   claim_C4_amended.2.2 [0, 1, 2] [true, true, false] [true, true, false] rfl⟩

/-- C5 counterexample: resuming the fixture saved state — one multi-select
question, stored answer `{A, B}` exactly matching `correctAnswer =
['A','B']`, and `checkedAnswers = [true]` — reconstructs the status `null`,
not the recomputed `'correct'` the claim asserts for a checked question:
the resume branch never consults `checkedAnswers` and pins every
multi-select status to `null`. -/
theorem claim_C5_counterexample :
    (resumeSession catW cfgW savedMultiCheckedW 0).answerStatuses = [none] ∧
    savedMultiCheckedW.checkedAnswers = some [true] ∧
    (resumeSession catW cfgW savedMultiCheckedW 0).checkedAnswers = [true] ∧
    exactSetMatch qMultiW.correctAnswer ["A", "B"] = true ∧
    (none : Option Status) ≠ some Status.correct := by
  decide

/-- C5 amended: on resume every multi-select question's status is `null`
regardless of `checkedAnswers`; a single-select question with a `null`
stored answer also gets `null`; a single-select question with a string
answer gets `'correct'` exactly when the answer is among `correctAnswers`
(a non-string leftover value scores `'incorrect'`); and the session's
statuses are exactly these per-question values. -/
theorem claim_C5_amended :
    (∀ (q : QuizItem) (a : Ans), isMultiSelect q.correctAnswer = true →
      statusFor q a = none) ∧
    (∀ q : QuizItem, statusFor q .unanswered = none) ∧
    (∀ (q : QuizItem) (s : String), isMultiSelect q.correctAnswer = false →
      statusFor q (.one s) =
        some (if q.correctAnswer.contains s then .correct else .incorrect)) ∧
    (∀ (q : QuizItem) (l : List String), isMultiSelect q.correctAnswer = false →
      statusFor q (.many l) = some .incorrect ∧ statusFor q (.arr l) = some .incorrect) ∧
    (∀ (catalog : Catalog) (config : QuizConfig) (saved : SavedQuizState) (now : Int),
      (resumeSession catalog config saved now).answerStatuses =
        resumeStatuses
          (saved.questionIds.filterMap
            (fun id => getQuestionById catalog (some config.courseId) id))
          (reconvAnswers
            (saved.questionIds.filterMap
              (fun id => getQuestionById catalog (some config.courseId) id))
            saved.userAnswers)) := by
  refine ⟨?_, ?_, ?_, ?_, ?_⟩
  · intro q a h
    simp [statusFor, h]
  · intro q
    by_cases h : isMultiSelect q.correctAnswer <;> simp [statusFor, h]
  · intro q s h
    simp [statusFor, h]
  · intro q l h
    exact ⟨by simp [statusFor, h], by simp [statusFor, h]⟩
  · intro catalog config saved now
    rfl

/-- C5 amended witness: the fixture multi-select question's resumed status
is `null` even though the answer matches; a single-select answer among the
key resumes to `'correct'`. -/
theorem claim_C5_witness :
    statusFor qMultiW (.many ["A", "B"]) = none ∧
    statusFor qSingleW (.one "A") =
      some (if qSingleW.correctAnswer.contains "A" then .correct else .incorrect) :=
  ⟨claim_C5_amended.1 qMultiW (.many ["A", "B"]) (by decide),
   claim_C5_amended.2.2.1 qSingleW "A" (by decide)⟩

/-- C6 counterexample: a persisted `currentIndex` of `-1` is out of range,
but resuming the fixture state leaves it at `-1` — the bounds check
`savedState.currentIndex < loadedQuestions.length ? … : 0` only guards the
upper bound, so the claimed clamp to `0` (and with it the invariant
`0 <= currentIndex`) fails for negative persisted values. -/
theorem claim_C6_counterexample :
    (resumeSession catW cfgW { savedMultiCheckedW with currentIndex := -1 } 0).currentIndex
        = -1 ∧
    (resumeSession catW cfgW { savedMultiCheckedW with currentIndex := -1 } 0).questions.length
        = 1 ∧
    ¬ (0 ≤ (resumeSession catW cfgW
          { savedMultiCheckedW with currentIndex := -1 } 0).currentIndex) := by
  decide

/-- C6 amended: the resume-time bounds check resets only an index `≥` the
question-list length to `0`; a negative persisted index is used as-is.
Consequently the invariant `0 ≤ currentIndex < len(questionIds)` holds
after load for every saved state whose persisted index is non-negative,
provided the reconstructed question list is non-empty. -/
theorem claim_C6_amended
    (catalog : Catalog) (config : QuizConfig) (saved : SavedQuizState) (now : Int)
    (hnonneg : 0 ≤ saved.currentIndex)
    (hlen : 0 < (resumeSession catalog config saved now).questions.length) :
    0 ≤ (resumeSession catalog config saved now).currentIndex ∧
    (resumeSession catalog config saved now).currentIndex <
      ((resumeSession catalog config saved now).questions.length : Int) := by
  have hq : (resumeSession catalog config saved now).questions =
      saved.questionIds.filterMap
        (fun id => getQuestionById catalog (some config.courseId) id) := rfl
  have hc : (resumeSession catalog config saved now).currentIndex =
      clampIndex saved.currentIndex
        (saved.questionIds.filterMap
          (fun id => getQuestionById catalog (some config.courseId) id)).length := rfl
  rw [hq] at hlen ⊢
  rw [hc]
  unfold clampIndex
  split
  · next h => exact ⟨hnonneg, h⟩
  · next h => exact ⟨le_refl 0, by exact_mod_cast hlen⟩

/-- C6 amended witness: resuming the fixture state (persisted index `0`,
one reconstructed question) lands inside the bounds. -/
theorem claim_C6_witness :
    0 ≤ (resumeSession catW cfgW savedMultiCheckedW 0).currentIndex ∧
    (resumeSession catW cfgW savedMultiCheckedW 0).currentIndex <
      ((resumeSession catW cfgW savedMultiCheckedW 0).questions.length : Int) :=
  claim_C6_amended catW cfgW savedMultiCheckedW 0 (by decide) (by decide)

/-- After filtering away every entry with a given timestamp, none is left
counting toward it. -/
theorem countP_ts_filter_zero (l : List QuizResults) (t : Option Int) :
    (l.filter (fun x => x.timestamp ≠ t)).countP (fun x => x.timestamp = t) = 0 := by
  rw [List.countP_eq_zero]
  intro a ha
  have h2 := List.of_mem_filter ha
  simp at h2 ⊢
  exact h2

set_option maxRecDepth 10000 in
/-- C8: `handleAddResult` preserves the history invariant — at most 50
entries, sorted ascending by timestamp — starting from any previous
history: the result holds at most one entry carrying the assigned
timestamp (the duplicate-submission guard removes any pre-existing entry
with exactly that timestamp before appending), and appending 55 results
with timestamps `0,…,54` to an empty history leaves exactly the 50 newest
(`5,…,54`), the 5 oldest evicted. -/
theorem claim_C8_history_invariant :
    (∀ (h : List QuizResults) (r : QuizResults) (now : Int),
      (handleAddResult h r now).length ≤ 50) ∧
    (∀ (h : List QuizResults) (r : QuizResults) (now : Int),
      (handleAddResult h r now).Sorted (fun a b => tsKey a ≤ tsKey b)) ∧
    (∀ (h : List QuizResults) (r : QuizResults) (now : Int),
      (handleAddResult h r now).countP
        (fun x => x.timestamp = some (assignedTs r now)) ≤ 1) ∧
    ((List.range 55).foldl (fun h i => handleAddResult h (simpleResult i) 0) []).map tsKey =
      (List.range' 5 50).map (fun n => (n : Int)) := by
  refine ⟨?_, ?_, ?_, by decide⟩
  · intro h r now
    simp only [handleAddResult, List.length_drop]
    omega
  · intro h r now
    exact List.Pairwise.sublist (List.drop_sublist _ _)
      (List.sorted_insertionSort (fun a b => tsKey a ≤ tsKey b) _)
  · intro h r now
    simp only [handleAddResult]
    refine le_trans (List.Sublist.countP_le _ (List.drop_sublist _ _)) ?_
    rw [(List.perm_insertionSort (fun a b => tsKey a ≤ tsKey b) _).countP_eq,
      List.countP_append, countP_ts_filter_zero]
    simp [List.countP_cons]

end QuizApp

